import Mathlib

/-!
Shallow embedding of `src/js/main.js`, the single script of this
repository, and proofs about its five behaviors.  DOM class lists are
`List String`, elements are records of exactly the fields the script
reads or writes, and each event handler becomes a pure function from its
inputs to its effect on that state.
-/

namespace Portfolio

/-- DOMTokenList membership, the semantic content of `classList.contains`
and of the rendered presence of a class. -/
def hasClass (cs : List String) (c : String) : Bool := decide (c ∈ cs)

/-- DOMTokenList `add`: appends the token unless it is already present. -/
def addClass (cs : List String) (c : String) : List String :=
  if c ∈ cs then cs else cs ++ [c]

/-- DOMTokenList `remove`: drops every occurrence of the token. -/
def removeClass (cs : List String) (c : String) : List String :=
  cs.filter (fun x => x ≠ c)

/-- DOMTokenList `toggle`: remove the token when present, add it when
absent. -/
def toggleClass (cs : List String) (c : String) : List String :=
  if c ∈ cs then removeClass cs c else addClass cs c

theorem hasClass_removeClass_self (cs : List String) (c : String) :
    hasClass (removeClass cs c) c = false := by
  simp [hasClass, removeClass]

theorem hasClass_addClass_self (cs : List String) (c : String) :
    hasClass (addClass cs c) c = true := by
  by_cases h : c ∈ cs <;> simp [hasClass, addClass, h]

theorem hasClass_toggleClass_self (cs : List String) (c : String) :
    hasClass (toggleClass cs c) c = !(hasClass cs c) := by
  by_cases h : c ∈ cs
  · rw [toggleClass, if_pos h, hasClass_removeClass_self]
    simp [hasClass, h]
  · rw [toggleClass, if_neg h, hasClass_addClass_self]
    simp [hasClass, h]

/-- Removing a token commutes out of `add`/`toggle` of a different use of
the same token: the sublist of all other tokens is untouched. -/
theorem removeClass_addClass (cs : List String) (c : String) :
    removeClass (addClass cs c) c = removeClass cs c := by
  by_cases h : c ∈ cs <;> simp [addClass, removeClass, h, List.filter_append]

theorem removeClass_removeClass (cs : List String) (c : String) :
    removeClass (removeClass cs c) c = removeClass cs c := by
  simp [removeClass, List.filter_filter]

theorem removeClass_toggleClass (cs : List String) (c : String) :
    removeClass (toggleClass cs c) c = removeClass cs c := by
  by_cases h : c ∈ cs <;>
    simp [toggleClass, h, removeClass_addClass, removeClass_removeClass]

/-- A DOM element as the script sees it: class list, text content, and
the inline `background-color` style. -/
structure Element where
  classes : List String
  text : List Char
  styleBg : String
deriving DecidableEq

/-! ### Behavior 1: mobile navigation toggle (main.js lines 20-38) -/

/-- The class lists of `#nav-toggle` and `#nav-menu` once both lookups
succeeded (the script attaches these handlers only inside
`if (navToggle && navMenu)`). -/
structure NavState where
  toggleClasses : List String
  menuClasses : List String
deriving DecidableEq

/-- The click handler on `#nav-toggle`: `classList.toggle('active')` on
both the button and the menu. -/
def navToggleClick (s : NavState) : NavState :=
  { toggleClasses := toggleClass s.toggleClasses "active"
    menuClasses := toggleClass s.menuClasses "active" }

/-- The click handler attached to every `.nav-link`:
`classList.remove('active')` on both the button and the menu. -/
def navLinkClick (s : NavState) : NavState :=
  { toggleClasses := removeClass s.toggleClasses "active"
    menuClasses := removeClass s.menuClasses "active" }

/-- C5: a click on the nav toggle flips the presence of `active` on both
the toggle button and the nav menu, and a click on any nav link removes
`active` from both, from every prior class state. -/
theorem navToggle_flips_navLink_clears (s : NavState) :
    hasClass (navToggleClick s).toggleClasses "active"
        = !(hasClass s.toggleClasses "active") ∧
    hasClass (navToggleClick s).menuClasses "active"
        = !(hasClass s.menuClasses "active") ∧
    hasClass (navLinkClick s).toggleClasses "active" = false ∧
    hasClass (navLinkClick s).menuClasses "active" = false := by
  refine ⟨?_, ?_, ?_, ?_⟩ <;>
    simp [navToggleClick, navLinkClick, hasClass_toggleClass_self,
      hasClass_removeClass_self]

/-! ### Behavior 4: typing effect for the hero name (main.js lines 105-123) -/

/-- The fixed string typed by the effect, `nameToType` in the script, as
its character sequence. -/
def nameToType : List Char := "Noor Elahi Ali Shibly".toList

/-- JS `String.prototype.charAt`: a one-character string, empty when the
index is out of range. -/
def charAt (s : List Char) (i : Nat) : List Char := (s.drop i).take 1

/-- The element `#typed-name` together with the `charIndex` counter. -/
structure TypingState where
  el : Element
  charIndex : Nat
deriving DecidableEq

/-- One invocation of `typeCharacter` when `#typed-name` exists: append
`nameToType.charAt(charIndex)` to the text content, advance the counter,
and call `setTimeout(typeCharacter, delay)` again; outside the guard do
nothing.  The Bool records whether `setTimeout` rescheduled the
function. -/
def typeCharacter (s : TypingState) : TypingState × Bool :=
  if s.charIndex < nameToType.length then
    ({ el := { s.el with text := s.el.text ++ charAt nameToType s.charIndex }
       charIndex := s.charIndex + 1 }, true)
  else (s, false)

/-- The chain of timer callbacks: `n` invocations starting from the
initial state (`charIndex = 0`, the element as loaded). -/
def typeRun (el0 : Element) : Nat → TypingState
  | 0 => { el := el0, charIndex := 0 }
  | n + 1 => (typeCharacter (typeRun el0 n)).1

theorem take_append_charAt (s : List Char) (i : Nat) (h : i < s.length) :
    s.take i ++ charAt s i = s.take (i + 1) := by
  induction s generalizing i with
  | nil => simp at h
  | cons a as ih =>
    cases i with
    | zero => simp [charAt]
    | succ j =>
      simp only [List.take_succ_cons, List.cons_append, charAt, List.drop_succ_cons]
      rw [List.cons.injEq]
      exact ⟨rfl, ih j (by simpa using h)⟩

theorem typeRun_eq (el0 : Element) (k : Nat) (hk : k ≤ nameToType.length) :
    (typeRun el0 k).el.text = el0.text ++ nameToType.take k ∧
    (typeRun el0 k).el.classes = el0.classes ∧
    (typeRun el0 k).el.styleBg = el0.styleBg ∧
    (typeRun el0 k).charIndex = k := by
  induction k with
  | zero => simp [typeRun]
  | succ j ih =>
    have hj : j ≤ nameToType.length := Nat.le_of_succ_le hk
    obtain ⟨htext, hcl, hbg, hidx⟩ := ih hj
    have hjlt : j < nameToType.length := hk
    refine ⟨?_, ?_, ?_, ?_⟩ <;>
      simp [typeRun, typeCharacter, htext, hcl, hbg, hidx, hjlt,
        List.append_assoc, take_append_charAt nameToType j hjlt]

/-- C8: the typewriter terminates at the string's end.  Every invocation
with characters remaining appends exactly the character at `charIndex`
(one character) and reschedules itself; an invocation with no characters
remaining changes nothing and does not reschedule; and starting from an
empty text content and `charIndex = 0`, after exactly
`nameToType.length` appends the text equals the full name and the next
invocation stops. -/
theorem typewriter_terminates :
    (∀ s : TypingState, s.charIndex < nameToType.length →
      (typeCharacter s).1.el.text = s.el.text ++ charAt nameToType s.charIndex ∧
      (typeCharacter s).1.el.text.length = s.el.text.length + 1 ∧
      (typeCharacter s).1.charIndex = s.charIndex + 1 ∧
      (typeCharacter s).2 = true) ∧
    (∀ s : TypingState, nameToType.length ≤ s.charIndex →
      typeCharacter s = (s, false)) ∧
    (∀ el0 : Element, el0.text = [] →
      (typeRun el0 nameToType.length).el.text = nameToType ∧
      typeCharacter (typeRun el0 nameToType.length)
        = ((typeRun el0 nameToType.length), false)) := by
  refine ⟨fun s h => ?_, fun s h => ?_, fun el0 h0 => ?_⟩
  · have hone : (charAt nameToType s.charIndex).length = 1 := by
      simp [charAt, List.length_take, List.length_drop]
      omega
    refine ⟨?_, ?_, ?_, ?_⟩ <;>
      simp [typeCharacter, if_pos h, hone]
  · have hnot : ¬ s.charIndex < nameToType.length := Nat.not_lt.mpr h
    simp [typeCharacter, if_neg hnot]
  · obtain ⟨htext, _, _, hidx⟩ := typeRun_eq el0 nameToType.length le_rfl
    have hfull : (typeRun el0 nameToType.length).el.text = nameToType := by
      rw [htext, h0]; simp
    have hstop : ¬ (typeRun el0 nameToType.length).charIndex < nameToType.length := by
      rw [hidx]; exact Nat.lt_irrefl _
    exact ⟨hfull, by simp [typeCharacter, if_neg hstop]⟩

/-- Witness for C8 at the concrete initial element: the first invocation
appends the first character, and the run of length 21 reaches the full
name and stops. -/
theorem typewriter_terminates_witness :
    ((typeCharacter ⟨⟨[], [], ""⟩, 0⟩).1.el.text
        = ([] : List Char) ++ charAt nameToType 0 ∧
      (typeCharacter ⟨⟨[], [], ""⟩, 0⟩).1.el.text.length = ([] : List Char).length + 1 ∧
      (typeCharacter ⟨⟨[], [], ""⟩, 0⟩).1.charIndex = 0 + 1 ∧
      (typeCharacter ⟨⟨[], [], ""⟩, 0⟩).2 = true) ∧
    (typeCharacter ⟨⟨[], [], ""⟩, 21⟩ = (⟨⟨[], [], ""⟩, 21⟩, false)) ∧
    ((typeRun ⟨[], [], ""⟩ nameToType.length).el.text = nameToType ∧
      typeCharacter (typeRun ⟨[], [], ""⟩ nameToType.length)
        = ((typeRun ⟨[], [], ""⟩ nameToType.length), false)) :=
  ⟨typewriter_terminates.1 ⟨⟨[], [], ""⟩, 0⟩ (by decide),
   typewriter_terminates.2.1 ⟨⟨[], [], ""⟩, 21⟩ (by decide),
   typewriter_terminates.2.2 ⟨[], [], ""⟩ rfl⟩

/-- The jittered delay computed in `typeCharacter`:
`Math.floor(Math.random() * 70) + 80`, where `r` stands for the result
of `Math.random()`, a number in `[0, 1)`. -/
def typingDelay (r : ℚ) : ℤ := ⌊r * 70⌋ + 80

/-- C9: every jittered delay passed to `setTimeout` between consecutive
typed characters is an integer (by its type) in the closed interval
`[80, 149]`, for every value `Math.random` may return in `[0, 1)`. -/
theorem typing_delay_bounds (r : ℚ) (h0 : 0 ≤ r) (h1 : r < 1) :
    80 ≤ typingDelay r ∧ typingDelay r ≤ 149 := by
  have hlow : (0 : ℤ) ≤ ⌊r * 70⌋ := by
    apply Int.floor_nonneg.mpr
    positivity
  have hhigh : ⌊r * 70⌋ < 70 := by
    apply Int.floor_lt.mpr
    push_cast
    nlinarith
  constructor
  · unfold typingDelay; omega
  · unfold typingDelay; omega

/-- Witness for C9 at `r = 1/2`: the delay is 115, inside `[80, 149]`. -/
theorem typing_delay_bounds_witness :
    (0 ≤ (1/2 : ℚ) ∧ (1/2 : ℚ) < 1) ∧
    (80 ≤ typingDelay (1/2) ∧ typingDelay (1/2) ≤ 149) :=
  ⟨⟨by norm_num, by norm_num⟩, typing_delay_bounds (1/2) (by norm_num) (by norm_num)⟩

/-! ### Behavior 2: smooth scroll for anchor links (main.js lines 45-64) -/

/-- Outcome of one click on an anchor the handler is attached to:
whether `e.preventDefault()` ran and whether
`scrollIntoView(behavior smooth)` was invoked on the target. -/
structure ClickOutcome where
  prevented : Bool
  scrolled : Bool
deriving DecidableEq

/-- The click handler attached to every element matching
`a[href^="#"]`: when the href is not exactly `"#"`, prevent the default
navigation and, when `document.querySelector(href)` finds the target,
smooth-scroll to it; `targetExists` abstracts that lookup. -/
def anchorClick (href : String) (targetExists : Bool) : ClickOutcome :=
  if href ≠ "#" then
    { prevented := true, scrolled := targetExists }
  else
    { prevented := false, scrolled := false }

/-- The CSS attribute selector `a[href^="#"]` that picks the anchors
this handler is attached to: the href begins with the character `#`. -/
def matchesAnchorSelector (href : String) : Bool := href.data.head? == some '#'

/-- C6 counterexample: the href `"#"` begins with `'#'` (so the handler
is attached and the claim applies), yet the handler neither prevents the
default navigation nor scrolls. -/
theorem anchorClick_hash_cex :
    matchesAnchorSelector "#" = true ∧
    (anchorClick "#" true).prevented = false ∧
    (anchorClick "#" true).scrolled = false := by
  refine ⟨by decide, ?_, ?_⟩ <;> simp [anchorClick]

/-- C6 amended: for every click on an anchor whose href begins with
`'#'`, the handler prevents the default navigation exactly when the href
is not the bare `"#"`, and invokes smooth scrolling exactly when the
href is not `"#"` and the target element exists. -/
theorem anchorClick_amended (href : String) (targetExists : Bool) :
    (anchorClick href targetExists).prevented = !(href == "#") ∧
    (anchorClick href targetExists).scrolled = (!(href == "#") && targetExists) := by
  by_cases h : href = "#" <;> simp [anchorClick, h]

/-! ### Behavior 3: fade-in animations on scroll (main.js lines 70-100) -/

/-- A fade-in element: its id, class list, whether the observer is still
observing it, and a count of how many times the observer callback took
the intersecting branch for it. -/
structure FadeElement where
  eid : Nat
  classes : List String
  observed : Bool
  fires : Nat
deriving DecidableEq

/-- Effect of one delivered IntersectionObserver entry
`(target id, isIntersecting)` on one element: the browser delivers
entries only for targets still being observed, and on an intersecting
entry the callback adds `visible` to the target and unobserves it. -/
def entryStepElem (ev : Nat × Bool) (el : FadeElement) : FadeElement :=
  if el.eid = ev.1 ∧ el.observed = true ∧ ev.2 = true then
    { el with classes := addClass el.classes "visible", observed := false,
              fires := el.fires + 1 }
  else el

/-- One entry applied across the element list. -/
def entryStep (elems : List FadeElement) (ev : Nat × Bool) : List FadeElement :=
  elems.map (entryStepElem ev)

/-- A whole sequence of intersection events, in order. -/
def runEntries (evs : List (Nat × Bool)) (elems : List FadeElement) : List FadeElement :=
  evs.foldl entryStep elems

/-- The initial observation pass: `fadeObserver.observe` on every element
with class `fade-in`, given as pairs of id and initial class list. -/
def observeAll (pre : List (Nat × List String)) : List FadeElement :=
  pre.map (fun p => { eid := p.1, classes := p.2, observed := true, fires := 0 })

/-- The per-element run of a sequence of events. -/
def elemRun (evs : List (Nat × Bool)) (el : FadeElement) : FadeElement :=
  evs.foldl (fun e ev => entryStepElem ev e) el

theorem elemRun_nil (el : FadeElement) : elemRun [] el = el := rfl

theorem runEntries_eq_map (evs : List (Nat × Bool)) (elems : List FadeElement) :
    runEntries evs elems = elems.map (elemRun evs) := by
  induction evs generalizing elems with
  | nil =>
    simp only [runEntries, List.foldl_nil]
    have h : List.map (elemRun []) elems = List.map id elems :=
      List.map_congr_left (fun a _ => elemRun_nil a)
    rw [h, List.map_id]
  | cons ev evs ih =>
    simp only [runEntries, List.foldl_cons] at *
    rw [ih (entryStep elems ev)]
    simp [entryStep, elemRun, List.map_map]

theorem entryStepElem_eid (ev : Nat × Bool) (el : FadeElement) :
    (entryStepElem ev el).eid = el.eid := by
  by_cases h : el.eid = ev.1 ∧ el.observed = true ∧ ev.2 = true <;>
    simp [entryStepElem, h]

theorem elemRun_eid (evs : List (Nat × Bool)) (el : FadeElement) :
    (elemRun evs el).eid = el.eid := by
  induction evs generalizing el with
  | nil => rfl
  | cons ev evs ih => rw [elemRun, List.foldl_cons]
                      exact (ih _).trans (entryStepElem_eid ev el)

theorem elemRun_fires_mono (evs : List (Nat × Bool)) (el : FadeElement) :
    el.fires ≤ (elemRun evs el).fires := by
  induction evs generalizing el with
  | nil => exact le_rfl
  | cons ev evs ih =>
    rw [elemRun, List.foldl_cons]
    refine le_trans ?_ (ih (entryStepElem ev el))
    by_cases h : el.eid = ev.1 ∧ el.observed = true ∧ ev.2 = true <;>
      simp [entryStepElem, h]

/-- Invariant carried through the event sequence: at most one firing so
far, a still-observed element has not fired, and a fired element carries
`visible` and is unobserved. -/
def GoodElem (el : FadeElement) : Prop :=
  el.fires ≤ 1 ∧ (el.observed = true → el.fires = 0) ∧
  (1 ≤ el.fires → hasClass el.classes "visible" = true ∧ el.observed = false)

theorem goodElem_step (ev : Nat × Bool) (el : FadeElement) (hg : GoodElem el) :
    GoodElem (entryStepElem ev el) := by
  obtain ⟨h1, h2, h3⟩ := hg
  by_cases h : el.eid = ev.1 ∧ el.observed = true ∧ ev.2 = true
  · have hz : el.fires = 0 := h2 h.2.1
    refine ⟨?_, ?_, ?_⟩ <;>
      simp [entryStepElem, h, hz, hasClass_addClass_self]
  · simpa [entryStepElem, h] using ⟨h1, h2, h3⟩

theorem goodElem_run (evs : List (Nat × Bool)) (el : FadeElement) (hg : GoodElem el) :
    GoodElem (elemRun evs el) := by
  induction evs generalizing el with
  | nil => exact hg
  | cons ev evs ih =>
    rw [elemRun, List.foldl_cons]
    exact ih _ (goodElem_step ev el hg)

theorem elemRun_fires_of_mem (evs : List (Nat × Bool)) (el : FadeElement)
    (hr : el.observed = true ∨ 1 ≤ el.fires) (hmem : (el.eid, true) ∈ evs) :
    1 ≤ (elemRun evs el).fires := by
  induction evs generalizing el with
  | nil => simp at hmem
  | cons ev evs ih =>
    rw [elemRun, List.foldl_cons]
    rcases List.mem_cons.mp hmem with hev | hev
    · by_cases hobs : el.observed = true
      · have hcond : el.eid = ev.1 ∧ el.observed = true ∧ ev.2 = true := by
          rw [← hev]; exact ⟨rfl, hobs, rfl⟩
        refine le_trans ?_ (elemRun_fires_mono evs _)
        simp [entryStepElem, hcond]
      · have hf : 1 ≤ el.fires := hr.resolve_left hobs
        refine le_trans ?_ (elemRun_fires_mono evs _)
        by_cases h : el.eid = ev.1 ∧ el.observed = true ∧ ev.2 = true
        · simp [entryStepElem, h]
        · simp only [entryStepElem, if_neg h]
          omega
    · have hr' : (entryStepElem ev el).observed = true ∨ 1 ≤ (entryStepElem ev el).fires := by
        by_cases h : el.eid = ev.1 ∧ el.observed = true ∧ ev.2 = true
        · right; simp [entryStepElem, h]
        · rcases hr with hobs | hf
          · left; simpa [entryStepElem, h] using hobs
          · right; simpa [entryStepElem, h] using hf
      have heid : (entryStepElem ev el).eid = el.eid := entryStepElem_eid ev el
      exact ih _ hr' (by rw [heid]; exact hev)

/-- C7: across every sequence of intersection events delivered for the
observed fade-in elements, each element's callback takes the
intersecting branch at most once; an element that fired carries
`visible` and is no longer observed (so no later visibility change
triggers the callback for it again); and an element for which an
intersecting entry occurred did fire. -/
theorem fade_visible_at_most_once (pre : List (Nat × List String))
    (evs : List (Nat × Bool)) (el : FadeElement)
    (hmem : el ∈ runEntries evs (observeAll pre)) :
    el.fires ≤ 1 ∧
    (1 ≤ el.fires → hasClass el.classes "visible" = true ∧ el.observed = false) ∧
    ((el.eid, true) ∈ evs → el.fires = 1) := by
  rw [runEntries_eq_map] at hmem
  obtain ⟨el0, hel0, hrun⟩ := List.mem_map.mp hmem
  obtain ⟨p, _, hp⟩ := List.mem_map.mp hel0
  have hobs : el0.observed = true := by rw [← hp]
  have hfir : el0.fires = 0 := by rw [← hp]
  have hgood : GoodElem el0 := by
    refine ⟨by omega, fun _ => hfir, fun h1 => absurd h1 (by omega)⟩
  have hg : GoodElem el := hrun ▸ goodElem_run evs el0 hgood
  refine ⟨hg.1, hg.2.2, fun hin => ?_⟩
  have heid : el.eid = el0.eid := hrun ▸ elemRun_eid evs el0
  have hge : 1 ≤ (elemRun evs el0).fires :=
    elemRun_fires_of_mem evs el0 (Or.inl hobs) (by rw [← heid]; exact hin)
  rw [hrun] at hge
  have h1 := hg.1
  omega

/-- Witness for C7: one fade-in element, two intersecting events for it;
the element fired exactly once, carries `visible`, and is unobserved. -/
theorem fade_visible_at_most_once_witness :
    (⟨0, ["visible"], false, 1⟩ : FadeElement).fires ≤ 1 ∧
    (1 ≤ (⟨0, ["visible"], false, 1⟩ : FadeElement).fires →
      hasClass (⟨0, ["visible"], false, 1⟩ : FadeElement).classes "visible" = true ∧
      (⟨0, ["visible"], false, 1⟩ : FadeElement).observed = false) ∧
    (((⟨0, ["visible"], false, 1⟩ : FadeElement).eid, true) ∈
        [(0, true), (0, true)] →
      (⟨0, ["visible"], false, 1⟩ : FadeElement).fires = 1) :=
  fade_visible_at_most_once [(0, [])] [(0, true), (0, true)]
    ⟨0, ["visible"], false, 1⟩ (by decide)

/-- Load-time setup of the fade-in behavior: when the
IntersectionObserver API exists, observe every fade element; otherwise
add `visible` to every fade element immediately (the fallback branch),
with no observer created. -/
def fadeSetup (hasObserverAPI : Bool) (pre : List (Nat × List String)) :
    List FadeElement :=
  if hasObserverAPI then observeAll pre
  else pre.map (fun p => { eid := p.1, classes := addClass p.2 "visible",
                           observed := false, fires := 0 })

/-- C10: when the IntersectionObserver API is absent, every element with
class `fade-in` receives the `visible` class immediately at load time. -/
theorem fallback_all_visible (pre : List (Nat × List String))
    (el : FadeElement) (hmem : el ∈ fadeSetup false pre) :
    hasClass el.classes "visible" = true := by
  simp only [fadeSetup, if_neg (Bool.false_ne_true)] at hmem
  obtain ⟨p, _, hp⟩ := List.mem_map.mp hmem
  rw [← hp]
  exact hasClass_addClass_self p.2 "visible"

/-- Witness for C10 at a one-element page with no classes initially. -/
theorem fallback_all_visible_witness :
    hasClass (⟨0, ["visible"], false, 0⟩ : FadeElement).classes "visible" = true :=
  fallback_all_visible [(0, [])] ⟨0, ["visible"], false, 0⟩ (by decide)

/-! ### Behavior 5: active nav link highlighting (main.js lines 129-155) -/

/-- A page section with an id attribute, as `section[id]` selects it:
its id string, `offsetTop`, and `offsetHeight`. -/
structure PageSection where
  sid : String
  offsetTop : Int
  offsetHeight : Int
deriving DecidableEq

/-- A navigation link: its href attribute and its class list. -/
structure NavLink where
  href : String
  classes : List String
deriving DecidableEq

/-- The section test of `highlightNavLink`:
`scrollPosition >= sectionTop && scrollPosition < sectionTop + sectionHeight`. -/
def sectionContains (pos : Int) (s : PageSection) : Bool :=
  decide (s.offsetTop ≤ pos) && decide (pos < s.offsetTop + s.offsetHeight)

/-- `classList.remove('active')` over every nav link. -/
def removeActiveAll (links : List NavLink) : List NavLink :=
  links.map (fun l => { l with classes := removeClass l.classes "active" })

/-- `document.querySelector` for `.nav-link[href="#id"]` followed by the
guarded `classList.add('active')`: the first link with the matching href
gets the class; with no match nothing changes. -/
def addActiveTo (href : String) : List NavLink → List NavLink
  | [] => []
  | l :: ls =>
      if l.href = href then { l with classes := addClass l.classes "active" } :: ls
      else l :: addActiveTo href ls

/-- The body of the `sections.forEach` callback for one section. -/
def processSection (pos : Int) (links : List NavLink) (s : PageSection) : List NavLink :=
  if sectionContains pos s then addActiveTo ("#" ++ s.sid) (removeActiveAll links)
  else links

/-- `highlightNavLink`: `scrollPosition = window.scrollY + 100`, then the
per-section pass over all sections in document order. -/
def highlightNavLink (scrollY : Int) (sections : List PageSection)
    (links : List NavLink) : List NavLink :=
  sections.foldl (processSection (scrollY + 100)) links

/-- Whether a link currently carries the `active` class. -/
def isActive (l : NavLink) : Bool := hasClass l.classes "active"

/-- How many nav links carry the `active` class. -/
def countActive (links : List NavLink) : Nat := links.countP isActive

/-- Whether some link in the list has the given href. -/
def hasHref (links : List NavLink) (h : String) : Bool :=
  links.any (fun l => l.href == h)

theorem countActive_removeActiveAll (links : List NavLink) :
    countActive (removeActiveAll links) = 0 := by
  induction links with
  | nil => rfl
  | cons l ls ih =>
    simp only [countActive, removeActiveAll, List.map_cons, List.countP_cons] at *
    simp [isActive, hasClass_removeClass_self, ih]

theorem inactive_removeActiveAll (links : List NavLink) (l : NavLink)
    (hmem : l ∈ removeActiveAll links) : isActive l = false := by
  obtain ⟨l0, _, hl0⟩ := List.mem_map.mp hmem
  rw [← hl0]
  exact hasClass_removeClass_self l0.classes "active"

theorem countActive_addActiveTo (href : String) (links : List NavLink)
    (hin : ∀ l ∈ links, isActive l = false) :
    countActive (addActiveTo href links) ≤ 1 ∧
    (hasHref links href = true → countActive (addActiveTo href links) = 1) := by
  induction links with
  | nil => exact ⟨Nat.zero_le 1, by simp [hasHref, addActiveTo]⟩
  | cons l ls ih =>
    have hl : isActive l = false := hin l (List.mem_cons_self l ls)
    have hls : ∀ x ∈ ls, isActive x = false :=
      fun x hx => hin x (List.mem_cons_of_mem l hx)
    have hcount_ls : countActive ls = 0 := by
      simp only [countActive, List.countP_eq_zero]
      intro x hx
      simp [hls x hx]
    by_cases h : l.href = href
    · constructor
      · simp only [addActiveTo, if_pos h, countActive, List.countP_cons]
        have : countActive ls = 0 := hcount_ls
        simp only [countActive] at this
        rw [this]
        split <;> omega
      · intro _
        simp only [addActiveTo, if_pos h, countActive, List.countP_cons]
        simp only [countActive] at hcount_ls
        rw [hcount_ls]
        simp [isActive, hasClass_addClass_self]
    · obtain ⟨ih1, ih2⟩ := ih hls
      constructor
      · simp only [addActiveTo, if_neg h, countActive, List.countP_cons, hl]
        simpa [countActive] using ih1
      · intro hh
        have hh' : hasHref ls href = true := by
          simp only [hasHref, List.any_cons] at hh
          rcases Bool.or_eq_true_iff.mp hh with h1 | h1
          · exact absurd (by simpa using h1) h
          · exact h1
        simp only [addActiveTo, if_neg h, countActive, List.countP_cons, hl]
        simpa [countActive] using ih2 hh'

theorem hrefs_removeActiveAll (links : List NavLink) :
    (removeActiveAll links).map NavLink.href = links.map NavLink.href := by
  simp [removeActiveAll, List.map_map]

theorem hrefs_addActiveTo (href : String) (links : List NavLink) :
    (addActiveTo href links).map NavLink.href = links.map NavLink.href := by
  induction links with
  | nil => rfl
  | cons l ls ih =>
    by_cases h : l.href = href <;> simp [addActiveTo, h, ih]

theorem hrefs_processSection (pos : Int) (links : List NavLink) (s : PageSection) :
    (processSection pos links s).map NavLink.href = links.map NavLink.href := by
  by_cases h : sectionContains pos s = true
  · rw [processSection, if_pos h, hrefs_addActiveTo, hrefs_removeActiveAll]
  · rw [processSection, if_neg h]

theorem hasHref_removeActiveAll (links : List NavLink) (h : String) :
    hasHref (removeActiveAll links) h = hasHref links h := by
  induction links with
  | nil => rfl
  | cons l ls ih =>
    simp only [removeActiveAll, List.map_cons, hasHref, List.any_cons]
    congr 1

theorem hasHref_addActiveTo (href h : String) (links : List NavLink) :
    hasHref (addActiveTo href links) h = hasHref links h := by
  induction links with
  | nil => rfl
  | cons l ls ih =>
    by_cases hl : l.href = href
    · simp only [addActiveTo, if_pos hl, hasHref, List.any_cons]
    · simp only [addActiveTo, if_neg hl, hasHref, List.any_cons]
      congr 1

theorem hasHref_processSection (pos : Int) (links : List NavLink) (s : PageSection)
    (h : String) : hasHref (processSection pos links s) h = hasHref links h := by
  by_cases hc : sectionContains pos s = true
  · rw [processSection, if_pos hc, hasHref_addActiveTo, hasHref_removeActiveAll]
  · rw [processSection, if_neg hc]

theorem foldl_no_match (pos : Int) (sections : List PageSection) (links : List NavLink)
    (hnone : ∀ s ∈ sections, sectionContains pos s = false) :
    sections.foldl (processSection pos) links = links := by
  induction sections generalizing links with
  | nil => rfl
  | cons s rest ih =>
    have hs : sectionContains pos s = false := hnone s (List.mem_cons_self s rest)
    rw [List.foldl_cons, processSection, if_neg (by simp [hs])]
    exact ih links (fun x hx => hnone x (List.mem_cons_of_mem s hx))

theorem countActive_processSection_match (pos : Int) (links : List NavLink)
    (s : PageSection) (hs : sectionContains pos s = true) :
    countActive (processSection pos links s) ≤ 1 ∧
    (hasHref links ("#" ++ s.sid) = true →
      countActive (processSection pos links s) = 1) := by
  rw [processSection, if_pos hs]
  have hcnt := countActive_addActiveTo ("#" ++ s.sid) (removeActiveAll links)
    (inactive_removeActiveAll links)
  refine ⟨hcnt.1, fun hh => hcnt.2 ?_⟩
  rw [hasHref_removeActiveAll]
  exact hh

/-- C2 (amended): once the offset scroll position lies inside at least one
section, `highlightNavLink` leaves at most one nav link with the
`active` class; and when every section containing the position has a nav
link with the matching href, it leaves exactly one. -/
theorem highlight_at_most_one_active (scrollY : Int) (sections : List PageSection)
    (links : List NavLink)
    (hmatch : sections.any (sectionContains (scrollY + 100)) = true) :
    countActive (highlightNavLink scrollY sections links) ≤ 1 ∧
    ((∀ s ∈ sections, sectionContains (scrollY + 100) s = true →
        hasHref links ("#" ++ s.sid) = true) →
      countActive (highlightNavLink scrollY sections links) = 1) := by
  rw [highlightNavLink]
  generalize hpos : scrollY + 100 = pos at *
  induction sections generalizing links with
  | nil => simp at hmatch
  | cons s rest ih =>
    rw [List.foldl_cons]
    by_cases hrest : rest.any (sectionContains pos) = true
    · obtain ⟨ih1, ih2⟩ := ih (processSection pos links s) hrest
      refine ⟨ih1, fun hall => ih2 fun x hx hcx => ?_⟩
      rw [hasHref_processSection]
      exact hall x (List.mem_cons_of_mem s hx) hcx
    · have hnone : ∀ x ∈ rest, sectionContains pos x = false := by
        intro x hx
        by_contra hcx
        have hcx' : sectionContains pos x = true := by
          cases hb : sectionContains pos x
          · exact absurd hb hcx
          · rfl
        exact hrest (List.any_eq_true.mpr ⟨x, hx, hcx'⟩)
      have hs : sectionContains pos s = true := by
        rcases List.any_eq_true.mp hmatch with ⟨x, hx, hcx⟩
        rcases List.mem_cons.mp hx with hxs | hxr
        · rw [← hxs]; exact hcx
        · exact absurd hcx (by simp [hnone x hxr])
      rw [foldl_no_match pos rest _ hnone]
      obtain ⟨h1, h2⟩ := countActive_processSection_match pos links s hs
      exact ⟨h1, fun hall => h2 (hall s (List.mem_cons_self s rest) hs)⟩

/-- Witness for C2's amended theorem on a one-section page whose nav link
exists: exactly one link ends up active. -/
theorem highlight_at_most_one_active_witness :
    countActive (highlightNavLink 0 [⟨"about", 0, 200⟩] [⟨"#about", []⟩]) ≤ 1 ∧
    countActive (highlightNavLink 0 [⟨"about", 0, 200⟩] [⟨"#about", []⟩]) = 1 :=
  have h := highlight_at_most_one_active 0 [⟨"about", 0, 200⟩] [⟨"#about", []⟩]
    (by decide)
  ⟨h.1, h.2 (by decide)⟩

/-- C2 counterexample: the offset position 100 lies inside the only
section, yet no nav link has the matching href, so zero links are active
after `highlightNavLink` — the claim's "never zero" fails. -/
theorem highlight_zero_active_cex :
    ([⟨"about", 0, 200⟩] : List PageSection).any (sectionContains (0 + 100)) = true ∧
    countActive (highlightNavLink 0 [⟨"about", 0, 200⟩]
      [⟨"#contact", ["active"]⟩]) = 0 := by
  constructor
  · decide
  · decide

/-! ### Behavior 6: navbar background on scroll (main.js lines 170-182) -/

/-- `handleNavbarScroll` on a present `#navbar`: past 50 pixels of scroll
set the inline background-color to the more opaque value, otherwise to
the base value. -/
def handleNavbarScroll (scrollY : Int) (navbar : Element) : Element :=
  if scrollY > 50 then { navbar with styleBg := "rgba(13, 13, 13, 0.98)" }
  else { navbar with styleBg := "rgba(13, 13, 13, 0.95)" }

/-! ### Null-guard structure of the handlers (claim C1)

Each `document.getElementById`/`querySelector` result that a handler
consumes is an `Option`; `JsResult.typeError` marks a property access on
an absent (`none`) result, exactly what the browser would raise as a
TypeError. -/

/-- Result of running a handler against possibly-absent lookups. -/
inductive JsResult (α : Type) where
  | ok : α → JsResult α
  | typeError : JsResult α
deriving DecidableEq

/-- Behavior 1 wiring: the click handlers are attached only inside
`if (navToggle && navMenu)`, so with either element absent a click runs
no handler and dereferences nothing. -/
def navToggleClickChecked (toggleCl? menuCl? : Option (List String)) :
    JsResult (Option (List String) × Option (List String)) :=
  match toggleCl?, menuCl? with
  | some t, some m =>
      .ok (some (toggleClass t "active"), some (toggleClass m "active"))
  | t?, m? => .ok (t?, m?)

/-- `typeCharacter` guards the element inside its own body:
`if (typedNameElement && charIndex < nameToType.length)`. -/
def typeCharacterChecked (el? : Option Element) (charIndex : Nat) :
    JsResult (Option Element × Nat) :=
  match el? with
  | some el =>
      let r := (typeCharacter { el := el, charIndex := charIndex }).1
      .ok (some r.el, r.charIndex)
  | none => .ok (none, charIndex)

/-- The smooth-scroll handler guards `document.querySelector(href)` with
`if (targetElement)`; `target?` abstracts that lookup. -/
def anchorClickChecked (href : String) (target? : Option Unit) : JsResult ClickOutcome :=
  .ok (anchorClick href target?.isSome)

/-- Inside `highlightNavLink` the `querySelector` result for the matching
link is guarded with `if (activeLink)`. -/
def addActiveChecked (activeLink? : Option NavLink) : JsResult (Option NavLink) :=
  match activeLink? with
  | some l => .ok (some { l with classes := addClass l.classes "active" })
  | none => .ok none

/-- `handleNavbarScroll` dereferences `navbar.style` with no existence
check: an absent `#navbar` raises a TypeError on the first scroll. -/
def handleNavbarScrollChecked (navbar? : Option Element) (scrollY : Int) :
    JsResult Element :=
  match navbar? with
  | some nb => .ok (handleNavbarScroll scrollY nb)
  | none => .typeError

/-- C1 counterexample: on a page without `#navbar`, the scroll handler
accesses a property of the absent lookup result — the claimed universal
guarding fails. -/
theorem navbar_unguarded_cex :
    handleNavbarScrollChecked none 100 = JsResult.typeError := rfl

/-- C1 (amended): every looked-up element except `#navbar` is guarded
with an existence check before use — none of those handlers can reach an
absent-element property access — while the navbar scroll handler
dereferences its lookup unguarded and fails exactly when `#navbar` is
absent. -/
theorem guards_all_but_navbar :
    (∀ t? m?, navToggleClickChecked t? m? ≠ JsResult.typeError) ∧
    (∀ el? i, typeCharacterChecked el? i ≠ JsResult.typeError) ∧
    (∀ href t?, anchorClickChecked href t? ≠ JsResult.typeError) ∧
    (∀ l?, addActiveChecked l? ≠ JsResult.typeError) ∧
    (∀ nb y, handleNavbarScrollChecked (some nb) y ≠ JsResult.typeError) ∧
    (∀ y, handleNavbarScrollChecked none y = JsResult.typeError) := by
  refine ⟨fun t? m? => ?_, fun el? i => ?_, fun href t? => ?_, fun l? => ?_,
    fun nb y => ?_, fun y => rfl⟩
  · match t?, m? with
    | some t, some m => simp [navToggleClickChecked]
    | some t, none => simp [navToggleClickChecked]
    | none, some m => simp [navToggleClickChecked]
    | none, none => simp [navToggleClickChecked]
  · match el? with
    | some el => simp [typeCharacterChecked]
    | none => simp [typeCharacterChecked]
  · simp [anchorClickChecked]
  · match l? with
    | some l => simp [addActiveChecked]
    | none => simp [addActiveChecked]
  · simp [handleNavbarScrollChecked]

/-! ### Scroll-event scheduling (claim C3, main.js lines 157-164 and 182) -/

/-- State of one animation frame of scroll handling: whether a
`requestAnimationFrame` callback is pending, and how many times each
piece of scroll work has run. -/
structure ScrollLoopState where
  pending : Bool
  highlightRuns : Nat
  navbarRuns : Nat
deriving DecidableEq

/-- One scroll event: the first listener cancels any pending animation
frame (`cancelAnimationFrame(scrollTimeout)`) and schedules
`highlightNavLink` anew, leaving exactly one pending callback; the
second listener calls `handleNavbarScroll` synchronously, once per
event. -/
def onScrollEvent (s : ScrollLoopState) : ScrollLoopState :=
  { pending := true, highlightRuns := s.highlightRuns, navbarRuns := s.navbarRuns + 1 }

/-- The frame boundary: the browser runs the at most one pending
`requestAnimationFrame` callback, which is `highlightNavLink`. -/
def endFrame (s : ScrollLoopState) : ScrollLoopState :=
  if s.pending then
    { pending := false, highlightRuns := s.highlightRuns + 1, navbarRuns := s.navbarRuns }
  else s

/-- `n` scroll events inside one frame starting idle, then the frame
fires. -/
def frameRun (n : Nat) : ScrollLoopState :=
  endFrame (onScrollEvent^[n] { pending := false, highlightRuns := 0, navbarRuns := 0 })

/-- C3 counterexample: two scroll events inside a single animation frame
run `handleNavbarScroll` twice — that scroll-attached handler is not
throttled to once per frame. -/
theorem navbar_scroll_unthrottled_cex :
    (frameRun 2).navbarRuns = 2 ∧ ¬ (frameRun 2).navbarRuns ≤ 1 := by
  constructor
  · rfl
  · decide

theorem iterate_onScrollEvent (n : Nat) :
    onScrollEvent^[n] { pending := false, highlightRuns := 0, navbarRuns := 0 }
      = { pending := decide (0 < n), highlightRuns := 0, navbarRuns := n } := by
  induction n with
  | zero => rfl
  | succ m ih =>
    rw [Function.iterate_succ_apply', ih]
    simp [onScrollEvent]

/-- C3 (amended): within one frame with `n` scroll events, the
`highlightNavLink` work runs at most once (it is scheduled through
`requestAnimationFrame`, with re-scheduling cancelling the pending
callback), while `handleNavbarScroll` runs once per scroll event,
unthrottled. -/
theorem scroll_throttling_amended (n : Nat) :
    (frameRun n).highlightRuns = min n 1 ∧ (frameRun n).navbarRuns = n := by
  rw [frameRun, iterate_onScrollEvent]
  cases n with
  | zero => simp [endFrame]
  | succ m => simp [endFrame, Nat.succ_le_succ, Nat.min_def]

/-! ### Mutation footprint of the handlers (claim C4) -/

/-- C4 counterexample: a scroll past the threshold rewrites the navbar's
inline background-color style — a DOM node property that is neither the
character-index counter nor membership of the `active`/`visible`
classes. -/
theorem navbar_style_mutation_cex :
    (handleNavbarScroll 100 ⟨[], [], "rgba(13, 13, 13, 0.95)"⟩).styleBg
        = "rgba(13, 13, 13, 0.98)" ∧
    (handleNavbarScroll 100 ⟨[], [], "rgba(13, 13, 13, 0.95)"⟩).styleBg
        ≠ (⟨[], [], "rgba(13, 13, 13, 0.95)"⟩ : Element).styleBg ∧
    (typeCharacter ⟨⟨[], [], ""⟩, 0⟩).1.el.text
        ≠ (⟨[], [], ""⟩ : Element).text := by
  refine ⟨rfl, ?_, ?_⟩ <;> decide

theorem classesMinusActive_removeActiveAll (links : List NavLink) :
    (removeActiveAll links).map (fun l => removeClass l.classes "active")
      = links.map (fun l => removeClass l.classes "active") := by
  rw [removeActiveAll, List.map_map]
  exact List.map_congr_left (fun a _ => removeClass_removeClass a.classes "active")

theorem classesMinusActive_addActiveTo (href : String) (links : List NavLink) :
    (addActiveTo href links).map (fun l => removeClass l.classes "active")
      = links.map (fun l => removeClass l.classes "active") := by
  induction links with
  | nil => rfl
  | cons l ls ih =>
    by_cases h : l.href = href
    · simp only [addActiveTo, if_pos h, List.map_cons]
      rw [removeClass_addClass]
    · simp only [addActiveTo, if_neg h, List.map_cons, ih]

theorem classesMinusActive_processSection (pos : Int) (links : List NavLink)
    (s : PageSection) :
    (processSection pos links s).map (fun l => removeClass l.classes "active")
      = links.map (fun l => removeClass l.classes "active") := by
  by_cases hc : sectionContains pos s = true
  · rw [processSection, if_pos hc, classesMinusActive_addActiveTo,
      classesMinusActive_removeActiveAll]
  · rw [processSection, if_neg hc]

/-- C4 (amended): beyond the character-index counter and the
`active`/`visible` class memberships, the handlers also mutate the
`#typed-name` text content, the navbar's inline background-color style,
and nothing else: the navbar handler leaves classes and text unchanged,
the typing handler leaves classes and style unchanged, the nav handlers
and the highlighting pass change no class other than `active` and no
href, and the observer callback changes no class other than `visible`
and no element identity. -/
theorem handlers_mutation_frame :
    (∀ (y : Int) (nb : Element), (handleNavbarScroll y nb).classes = nb.classes ∧
      (handleNavbarScroll y nb).text = nb.text) ∧
    (∀ s : TypingState, (typeCharacter s).1.el.classes = s.el.classes ∧
      (typeCharacter s).1.el.styleBg = s.el.styleBg) ∧
    (∀ s : NavState,
      removeClass (navToggleClick s).toggleClasses "active"
          = removeClass s.toggleClasses "active" ∧
      removeClass (navToggleClick s).menuClasses "active"
          = removeClass s.menuClasses "active" ∧
      removeClass (navLinkClick s).toggleClasses "active"
          = removeClass s.toggleClasses "active" ∧
      removeClass (navLinkClick s).menuClasses "active"
          = removeClass s.menuClasses "active") ∧
    (∀ (scrollY : Int) (sections : List PageSection) (links : List NavLink),
      (highlightNavLink scrollY sections links).map NavLink.href
          = links.map NavLink.href) ∧
    (∀ (scrollY : Int) (sections : List PageSection) (links : List NavLink),
      (highlightNavLink scrollY sections links).map
          (fun l => removeClass l.classes "active")
          = links.map (fun l => removeClass l.classes "active")) ∧
    (∀ (ev : Nat × Bool) (el : FadeElement),
      (entryStepElem ev el).eid = el.eid ∧
      removeClass (entryStepElem ev el).classes "visible"
          = removeClass el.classes "visible") := by
  refine ⟨fun y nb => ?_, fun s => ?_, fun s => ?_, fun scrollY sections links => ?_,
    fun scrollY sections links => ?_, fun ev el => ?_⟩
  · by_cases h : y > 50 <;> simp [handleNavbarScroll, h]
  · by_cases h : s.charIndex < nameToType.length <;> simp [typeCharacter, h]
  · exact ⟨removeClass_toggleClass _ _, removeClass_toggleClass _ _,
      removeClass_removeClass _ _, removeClass_removeClass _ _⟩
  · rw [highlightNavLink]
    induction sections generalizing links with
    | nil => rfl
    | cons s rest ih =>
      rw [List.foldl_cons, ih (processSection (scrollY + 100) links s),
        hrefs_processSection]
  · rw [highlightNavLink]
    induction sections generalizing links with
    | nil => rfl
    | cons s rest ih =>
      rw [List.foldl_cons, ih (processSection (scrollY + 100) links s),
        classesMinusActive_processSection]
  · constructor
    · exact entryStepElem_eid ev el
    · by_cases h : el.eid = ev.1 ∧ el.observed = true ∧ ev.2 = true
      · simp [entryStepElem, h, removeClass_addClass]
      · simp [entryStepElem, h]

end Portfolio
